import Mathlib

/-!
Verification development for the mysql-slow-query-lab repository.

The repository seeds a relational table with synthetic order records and runs
six paired slow/fast query scenarios.  This file gives a shallow embedding of
the core logic (internal/data/seed.go and internal/data/models.go) and proves
or refutes the frozen claims about it.

Modelling conventions:
- The relational store is a list of orders, kept in insertion order (which is
  also ascending primary-key order, since the engine assigns sequential keys).
- Timestamps are integers counting seconds; one hour is 3600 seconds.
- The pseudo-random source of Go's math/rand is modelled as a deterministic
  stream of naturals indexed by a position counter; rand.Intn(n) takes the
  next stream value modulo n, and rand.Float64() is modelled in fixed point as
  the next stream value modulo 1000000 (millionths of the unit interval).
  rand.NewSource(seed) yields a concrete linear-congruential stream, so a
  fixed seed gives a reproducible sequence just as in the source.
- float64 amounts are kept in the same fixed-point scale (millionths).
- Batched inserts whose flushes all succeed amount to appending every built
  row in order, so the batch bookkeeping nets out of the pure model.
- Database reads and writes cannot fail in the pure model; the one genuine
  failure point of the populators, the template fetch of the hot-customer
  path, is modelled explicitly.
-/

namespace SlowLab

/-- Deterministic 64-bit linear congruential step, the model of one state
transition of the seeded source behind Go's math/rand. -/
def lcgStep (s : Nat) : Nat :=
  (6364136223846793005 * s + 1442695040888963407) % 18446744073709551616

/-- Iterate the stream transition k times from a seed. -/
def lcgIter : Nat → Nat → Nat
  | 0, s => s
  | k + 1, s => lcgIter k (lcgStep s)

/-- A pseudo-random source: a stream of naturals and a read position.  This
models a *rand.Rand value threaded through the generator calls. -/
structure Rng where
  fn : Nat → Nat
  pos : Nat

/-- Draw the next raw stream value. -/
def Rng.next (r : Rng) : Nat × Rng :=
  (r.fn r.pos, ⟨r.fn, r.pos + 1⟩)

/-- Model of rand.Intn: a uniform draw in [0, n). -/
def Rng.intn (r : Rng) (n : Nat) : Nat × Rng :=
  let p := r.next
  (p.1 % n, p.2)

/-- Model of rand.Float64 in fixed point: a draw in [0, 1000000) standing for
millionths of the unit interval. -/
def Rng.float6 (r : Rng) : Nat × Rng :=
  let p := r.next
  (p.1 % 1000000, p.2)

/-- Model of rand.New(rand.NewSource(seed)): a concrete deterministic stream. -/
def mkRng (seed : Nat) : Rng :=
  ⟨fun p => lcgIter (p + 1) seed, 0⟩

/-- Decimal digit character for a value below ten. -/
def digitChar (n : Nat) : Char :=
  Char.ofNat (48 + n)

/-- Fuelled decimal printer producing the digits of n most significant first. -/
def natDigitsAux : Nat → Nat → List Char
  | 0, _ => []
  | fuel + 1, n =>
    if n < 10 then [digitChar n]
    else natDigitsAux fuel (n / 10) ++ [digitChar (n % 10)]

/-- Decimal digits of a natural number, the model of fmt's %d verb. -/
def natDigits (n : Nat) : List Char :=
  natDigitsAux (n + 1) n

/-- Decimal rendering of a natural number as a string. -/
def decRepr (n : Nat) : String :=
  String.mk (natDigits n)

/-- Zero-padded decimal rendering to width w, the model of fmt verbs such as
%08d and %06d. -/
def padDec (w : Nat) (n : Nat) : String :=
  String.mk (List.replicate (w - (natDigits n).length) '0' ++ natDigits n)

/-- The seeded entity of the lab, one row of the orders table
(internal/data/models.go, struct Order).  The engine-assigned key is 0 until
insertion assigns it; timestamps are seconds; the monetary amount is kept in
fixed point (millionths). -/
structure Order where
  id : Nat
  customerID : Nat
  customerName : String
  phone : String
  status : String
  productCategory : String
  region : String
  totalAmount : Nat
  discountCode : String
  note : String
  createdAt : Int
  updatedAt : Int
  shippedAt : Option Int
deriving DecidableEq, Inhabited

/-- The distinguished hot-customer id (models.go, coveringCustomerID). -/
def coveringCustomerID : Nat := 100

/-- Target number of hot-customer rows (models.go, CoveringCustomerTarget). -/
def CoveringCustomerTarget : Nat := 1000000

/-- Target number of date-range rows (models.go, DateRangeOrderTarget). -/
def DateRangeOrderTarget : Nat := 2000

/-- Target number of hot-phone rows (models.go, phoneHotRowTarget). -/
def phoneHotRowTarget : Nat := 2000

/-- Rune limit of the heavy hot note (models.go, heavyHotNoteRuneLimit). -/
def heavyHotNoteRuneLimit : Nat := 70

/-- The fixed date of the date-range window (models.go, indexFuncDate). -/
def indexFuncDate : String := "2024-01-01"

/-- Modelled from the spec: the fixed contact-string value shared by the
hot-phone rows.  The constant PhoneHotValue is referenced by models.go but its
defining declaration is not among the provided sources; the repository
documentation fixes the value 13812345678 (a "138" phone with the 8-digit
suffix 12345678). -/
def PhoneHotValue : String := "13812345678"

/-- Go strings.Repeat. -/
def strRepeat (s : String) : Nat → String
  | 0 => ""
  | n + 1 => s ++ strRepeat s n

/-- The long repeated-token note text truncated to 70 runes (models.go,
heavyHotNotePrefix; renamed here).  Runes of the Go source correspond to the
characters of a Lean string. -/
def heavyHotNoteText : String :=
  let base := strRepeat "热点订单数据 " 40
  if base.data.length > heavyHotNoteRuneLimit then
    String.mk (base.data.take heavyHotNoteRuneLimit)
  else base

/-- Start of the fixed 24-hour window, 2024-01-01 00:00:00 UTC in epoch
seconds (models.go, indexFuncRangeStart via mustParseDateTime). -/
def indexFuncRangeStart : Int := 1704067200

/-- End of the fixed 24-hour window (models.go, indexFuncRangeEnd). -/
def indexFuncRangeEnd : Int := indexFuncRangeStart + 24 * 3600

/-- Fixed vocabularies of the generators (seed.go). -/
def regions : List String := ["north", "south", "east", "west"]

def statuses : List String := ["pending", "paid", "fulfilled", "cancelled"]

def categories : List String := ["fashion", "electronics", "books", "grocery", "home"]

def loremSamples : List String :=
  [ "Need gift wrap and rush delivery please."
  , "Customer called to change shipping address."
  , "Large wholesale order awaiting approval."
  , "Repeat customer eligible for loyalty perks."
  , "Flagged for manual fraud review before shipment." ]

/-- Uniform choice over a fixed sequence (seed.go, randomChoice). -/
def randomChoice (items : List String) (r : Rng) : String × Rng :=
  let p := r.intn items.length
  (items.getD p.1 "", p.2)

/-- The status weight table of the weighted choice (seed.go,
randomChoiceWeighted; a Go map lookup of a missing key yields 0). -/
def statusWeight (it : String) : Nat :=
  if it = "pending" then 30
  else if it = "paid" then 40
  else if it = "fulfilled" then 20
  else if it = "cancelled" then 10
  else 0

/-- The subtract-in-category-order selection loop of randomChoiceWeighted:
starting from the drawn value, subtract each weight in order and return the
first item driving the running value negative. -/
def weightedPick (items : List String) (n : Int) : Option String :=
  match items with
  | [] => none
  | it :: rest =>
    let n2 := n - statusWeight it
    if n2 < 0 then some it else weightedPick rest n2

/-- Weighted categorical choice (seed.go, randomChoiceWeighted): draw a
uniform value below the weight total, then run the subtraction loop; the
first item is the defensive fallback of the source. -/
def randomChoiceWeighted (items : List String) (r : Rng) : String × Rng :=
  let total := items.foldl (fun acc it => acc + statusWeight it) 0
  let p := r.intn total
  (match weightedPick items (p.1 : Int) with
   | some it => it
   | none => items.getD 0 "", p.2)

/-- The fixed small set of phone number heads (seed.go, randomPhone). -/
def phoneHeads : List String := ["138", "139", "137", "188", "199"]

/-- Phone synthesis (seed.go, randomPhone): a head from the fixed set
followed by an 8-digit zero-padded random suffix. -/
def randomPhone (r : Rng) : String × Rng :=
  let p1 := r.intn phoneHeads.length
  let head := phoneHeads.getD p1.1 ""
  let p2 := p1.2.intn 100000000
  (head ++ padDec 8 p2.1, p2.2)

/-- Denormalized owner name (seed.go, customerName). -/
def customerName (id : Nat) : String :=
  "Customer " ++ padDec 6 id

/-- Discount token (seed.go, discountCode). -/
def discountCode (r : Rng) : String × Rng :=
  let p := r.intn 100
  ("CODE" ++ padDec 2 p.1, p.2)

/-- Synthetic record builder (seed.go, buildSyntheticOrder): one record from
a global sequence index, a random source and a reference now timestamp.  The
draws follow the evaluation order of the source. -/
def buildSyntheticOrder (globalIdx : Nat) (r0 : Rng) (now : Int) : Order × Rng :=
  let cr :=
    if globalIdx < 1000 then (coveringCustomerID, r0)
    else
      let p := r0.intn 50000
      (p.1 + 1, p.2)
  let customerID := cr.1
  let p1 := cr.2.intn (365 * 24)
  let created : Int := now - (p1.1 : Int) * 3600
  let p2 := p1.2.float6
  let sr :=
    if p2.1 > 300000 then
      let p3 := p2.2.intn 72
      ((some (created + (p3.1 : Int) * 3600) : Option Int), p3.2)
    else ((none : Option Int), p2.2)
  let shipped := sr.1
  let p4 := randomPhone sr.2
  let p5 := randomChoiceWeighted statuses p4.2
  let p6 := randomChoice categories p5.2
  let p7 := randomChoice regions p6.2
  let p8 := p7.2.float6
  let p9 := discountCode p8.2
  let p10 := randomChoice loremSamples p9.2
  let base : Order :=
    { id := 0
    , customerID := customerID
    , customerName := customerName customerID
    , phone := p4.1
    , status := p5.1
    , productCategory := p6.1
    , region := p7.1
    , totalAmount := 10 * 1000000 + 990 * p8.1
    , discountCode := p9.1
    , note := p10.1
    , createdAt := created
    , updatedAt := created
    , shippedAt := shipped }
  if customerID ≠ coveringCustomerID then
    let p11 := randomPhone p10.2
    ({ base with phone := p11.1 }, p11.2)
  else (base, p10.2)

/-- Seeding configuration (seed.go, SeedConfig). -/
structure SeedConfig where
  orders : Nat
  batchSize : Nat
deriving DecidableEq

/-- The general build loop of seedOrders: n records at ascending global
indices starting at start, threading the random source. -/
def buildOrders (start n : Nat) (r : Rng) (now : Int) : List Order :=
  match n with
  | 0 => []
  | m + 1 =>
    let p := buildSyntheticOrder start r now
    p.1 :: buildOrders (start + 1) m p.2 now

/-- General population (seed.go, seedOrders): count all rows; if the count
reaches the target, no-op; else build and insert exactly the deficit at
ascending indices using the fixed seed 42.  All batch flushes succeed in the
pure model, so the batched writes amount to one append. -/
def seedOrders (store : List Order) (cfg : SeedConfig) (now : Int) : List Order :=
  if store.length ≥ cfg.orders then store
  else
    let toCreate := cfg.orders - store.length
    let rnd := mkRng 42
    store ++ buildOrders store.length toCreate rnd now

/-- The rows a general seeding run adds beyond the prior store. -/
def seedInserted (store : List Order) (cfg : SeedConfig) (now : Int) : List Order :=
  (seedOrders store cfg now).drop store.length

/-- Filter of the hot-customer pool: rows of the distinguished owner. -/
def hotFilter (o : Order) : Bool :=
  o.customerID == coveringCustomerID

/-- One cloned hot-customer row (loop body of ensureHotCustomerOrders): the
template with identity reset, both timestamps moved to the template creation
time plus the pool row index in seconds, the note re-stamped, and the
fulfillment timestamp shifted by the same offset when present. -/
def hotClone (template : Order) (idx : Nat) : Order :=
  { template with
    id := 0
    createdAt := template.createdAt + (idx : Int)
    updatedAt := template.createdAt + (idx : Int)
    note := heavyHotNoteText ++ "#" ++ decRepr idx
    shippedAt := template.shippedAt.map (fun s => s + (idx : Int)) }

/-- The hot-customer clone loop: n clones at ascending pool indices from idx. -/
def hotCloneOrders (template : Order) (idx n : Nat) : List Order :=
  match n with
  | 0 => []
  | m + 1 => hotClone template idx :: hotCloneOrders template (idx + 1) m

/-- Hot-customer population (models.go, ensureHotCustomerOrders): count the
rows of the distinguished owner; if at target, no-op; else fetch the first
such row by key as the template — failing with a wrapped error when none
exists — and insert clones for exactly the deficit. -/
def ensureHotCustomerOrders (store : List Order) : List Order × Option String :=
  let existing := (store.filter hotFilter).length
  if existing ≥ CoveringCustomerTarget then (store, none)
  else
    match (store.filter hotFilter).head? with
    | none => (store, some "fetch template order: record not found")
    | some template =>
      (store ++ hotCloneOrders template existing (CoveringCustomerTarget - existing), none)

/-- Uniform status choice of the hot-phone path (models.go, randomStatus). -/
def randomStatus (r : Rng) : String × Rng :=
  let p := r.intn 4
  ((["pending", "paid", "fulfilled", "cancelled"] : List String).getD p.1 "", p.2)

/-- One hot-phone row (loop body of ensurePhoneHotOrders) at pool index i. -/
def phoneHotOrder (i : Nat) (r : Rng) (now : Int) : Order × Rng :=
  let p1 := r.intn (365 * 24)
  let created : Int := now - (p1.1 : Int) * 3600
  let p2 := randomStatus p1.2
  let p3 := p2.2.float6
  ( { id := 0
    , customerID := coveringCustomerID + 2000 + i
    , customerName := "PhoneHot " ++ padDec 6 i
    , phone := PhoneHotValue
    , status := p2.1
    , productCategory := "electronics"
    , region := "east"
    , totalAmount := 199 * 1000000 + 50 * p3.1
    , discountCode := "PHONEHOT"
    , note := "Phone hot sample #" ++ decRepr i
    , createdAt := created
    , updatedAt := created
    , shippedAt := none }
  , p3.2 )

/-- The hot-phone loop: n rows at ascending pool indices from idx. -/
def phoneHotOrders (idx n : Nat) (r : Rng) (now : Int) : List Order :=
  match n with
  | 0 => []
  | m + 1 =>
    let p := phoneHotOrder idx r now
    p.1 :: phoneHotOrders (idx + 1) m p.2 now

/-- Hot-phone population (models.go, ensurePhoneHotOrders): count the rows
carrying the fixed contact value; if at target, no-op; else insert exactly
the deficit.  The source seeds this path from the wall clock, so the random
source and the reference time are inputs here. -/
def ensurePhoneHotOrders (store : List Order) (r : Rng) (now : Int) :
    List Order × Option String :=
  let existing := (store.filter (fun o => o.phone == PhoneHotValue)).length
  if existing ≥ phoneHotRowTarget then (store, none)
  else (store ++ phoneHotOrders existing (phoneHotRowTarget - existing) r now, none)

/-- Membership test of the fixed 24-hour window on the creation timestamp. -/
def inDateRange (o : Order) : Bool :=
  decide (indexFuncRangeStart ≤ o.createdAt) && decide (o.createdAt < indexFuncRangeEnd)

/-- One date-range row (loop body of ensureDateRangeOrders): creation drawn
inside the fixed window; i is the loop index, existing the prior count.  The
contact field is never assigned by this path and stays the zero value. -/
def dateRangeOrder (existing i : Nat) (r : Rng) : Order × Rng :=
  let p1 := r.intn (24 * 60 * 60)
  let created : Int := indexFuncRangeStart + (p1.1 : Int)
  let p2 := p1.2.float6
  let sr :=
    if p2.1 > 400000 then
      let p3 := p2.2.intn 48
      ((some (created + ((p3.1 : Int) + 1) * 3600) : Option Int), p3.2)
    else ((none : Option Int), p2.2)
  let shipped := sr.1
  let p4 := randomChoiceWeighted statuses sr.2
  let p5 := randomChoice categories p4.2
  let p6 := randomChoice regions p5.2
  let p7 := p6.2.float6
  let p8 := discountCode p7.2
  ( { id := 0
    , customerID := coveringCustomerID + 1000
    , customerName := "DateHot " ++ padDec 6 i
    , phone := ""
    , status := p4.1
    , productCategory := p5.1
    , region := p6.1
    , totalAmount := 50 * 1000000 + 500 * p7.1
    , discountCode := p8.1
    , note := "日期热点订单 " ++ indexFuncDate ++ " #" ++ decRepr (existing + i)
    , createdAt := created
    , updatedAt := created
    , shippedAt := shipped }
  , p8.2 )

/-- The date-range loop: n rows at ascending loop indices from i. -/
def dateRangeOrders (existing i n : Nat) (r : Rng) : List Order :=
  match n with
  | 0 => []
  | m + 1 =>
    let p := dateRangeOrder existing i r
    p.1 :: dateRangeOrders existing (i + 1) m p.2

/-- Date-range population (models.go, ensureDateRangeOrders): count the rows
created inside the fixed window; if at target, no-op; else insert exactly the
deficit.  The source seeds this path from the wall clock, so the random
source is an input here. -/
def ensureDateRangeOrders (store : List Order) (r : Rng) :
    List Order × Option String :=
  let existing := (store.filter inDateRange).length
  if existing ≥ DateRangeOrderTarget then (store, none)
  else (store ++ dateRangeOrders existing 0 (DateRangeOrderTarget - existing) r, none)

/-- The four independent population targets of the dataset populator.  The
wall-clock-seeded paths carry their random source and reference time. -/
inductive PopTarget where
  | general (cfg : SeedConfig) (now : Int)
  | hotCustomer
  | phoneHot (r : Rng) (now : Int)
  | dateRange (r : Rng)

/-- The matching-row filter of each population pool. -/
def popFilter : PopTarget → Order → Bool
  | .general _ _ => fun _ => true
  | .hotCustomer => hotFilter
  | .phoneHot _ _ => fun o => o.phone == PhoneHotValue
  | .dateRange _ => inDateRange

/-- The numeric target of each population pool. -/
def popTargetOf : PopTarget → Nat
  | .general cfg _ => cfg.orders
  | .hotCustomer => CoveringCustomerTarget
  | .phoneHot _ _ => phoneHotRowTarget
  | .dateRange _ => DateRangeOrderTarget

/-- The matching row count a population path reads before topping up. -/
def popCount (p : PopTarget) (store : List Order) : Nat :=
  (store.filter (popFilter p)).length

/-- Run one population path against a store, yielding the new store and the
error of the run when one occurs. -/
def runPop : PopTarget → List Order → List Order × Option String
  | .general cfg now, store => (seedOrders store cfg now, none)
  | .hotCustomer, store => ensureHotCustomerOrders store
  | .phoneHot r now, store => ensurePhoneHotOrders store r now
  | .dateRange r, store => ensureDateRangeOrders store r

/-- The rows a population run adds beyond the prior store. -/
def popInserted (p : PopTarget) (store : List Order) : List Order :=
  (runPop p store).1.drop store.length

/-- The precondition routine a scenario entry points at (models.go, the Setup
fields of the catalog refer to the three ensure routines). -/
inductive SetupKind where
  | hotCustomer
  | dateRange
  | phoneHot
deriving DecidableEq

/-- A positional query argument of a scenario (models.go, the Args slices
hold integers and strings). -/
inductive QueryArg where
  | natArg (n : Nat)
  | strArg (s : String)
deriving DecidableEq

/-- The formatted bounds of the fixed window passed to the range scenario
(models.go, indexFuncRangeArgs: the parsed window bounds rendered back
through the datetime layout). -/
def indexFuncRangeArgs : List QueryArg :=
  [QueryArg.strArg "2024-01-01 00:00:00", QueryArg.strArg "2024-01-02 00:00:00"]

/-- A reproducible slow-query pattern (models.go, struct Scenario). -/
structure Scenario where
  typ : String
  name : String
  descr : String
  query : String
  args : List QueryArg
  setup : Option SetupKind
deriving DecidableEq

/-- Timing and explain output captured for a scenario (models.go, struct
ScenarioResult).  The wall-clock duration is externally measured, so it is an
abstract natural here; the captured failure is the error text. -/
structure ScenarioResult where
  typ : String
  name : String
  descr : String
  duration : Nat
  rowCount : Nat
  explain : List String
  err : Option String
deriving DecidableEq

/-- The fixed catalog of the six built-in scenarios, in source order
(models.go, RunScenarios). -/
def scenarioCatalog : List Scenario :=
  [ { typ := "回表对比"
    , name := "索引回表查询"
    , descr := "使用 customer_id 二级索引定位后再取整行，需对每条记录回表。"
    , query := "SELECT * FROM orders WHERE customer_id = ?"
    , args := [QueryArg.natArg coveringCustomerID]
    , setup := some SetupKind.hotCustomer }
  , { typ := "回表对比"
    , name := "覆盖索引查询"
    , descr := "同样条件只查 customer_id，可直接在二级索引中返回，避免回表。"
    , query := "SELECT customer_id FROM orders WHERE customer_id = ?"
    , args := [QueryArg.natArg coveringCustomerID]
    , setup := some SetupKind.hotCustomer }
  , { typ := "索引字段做函数操作对比"
    , name := "函数包裹索引列"
    , descr := "DATE(created_at) 把时间字段包一层函数，索引失效。"
    , query := "SELECT * FROM orders WHERE DATE(created_at) = ?"
    , args := [QueryArg.strArg indexFuncDate]
    , setup := some SetupKind.dateRange }
  , { typ := "索引字段做函数操作对比"
    , name := "范围查询命中索引"
    , descr := "同样的日期条件改用范围过滤，优化器可使用 created_at 索引快速定位。"
    , query := "SELECT * FROM orders WHERE created_at >= ? AND created_at < ?"
    , args := indexFuncRangeArgs
    , setup := some SetupKind.dateRange }
  , { typ := "类型匹配对比"
    , name := "类型不匹配隐式转换"
    , descr := "phone 列为字符串但使用数字常量比较，触发隐式转换并导致索引失效。"
    , query := "SELECT * FROM orders WHERE phone = 13812345678"
    , args := []
    , setup := some SetupKind.phoneHot }
  , { typ := "类型匹配对比"
    , name := "类型匹配命中索引"
    , descr := "同样的 phone 条件改为字符串常量，索引可直接命中。"
    , query := "SELECT * FROM orders WHERE phone = ?"
    , args := [QueryArg.strArg PhoneHotValue]
    , setup := some SetupKind.phoneHot } ]

/-- The engine-facing outcomes of one scenario run: how its precondition call
ends, what executing and draining the query yields (the measured duration and
the drained row count), and how each of the two plan-capture calls ends.
These are the external relational-store interactions of RunScenarios,
supplied as inputs of the pure model. -/
structure ScenarioEnv where
  setupOutcome : Option String
  queryOutcome : Except String (Nat × Nat)
  analyzeOutcome : Except String (List String)
  staticOutcome : Except String (List String)

/-- Plan capture with fallback (models.go, explainQuery): try the analyzing
variant first and fall back to the static variant exactly when the first
attempt fails; the error of a failed capture is the one of the static
attempt. -/
def explainOutcome (e : ScenarioEnv) : Except String (List String) :=
  match e.analyzeOutcome with
  | .ok lines => .ok lines
  | .error _ => e.staticOutcome

/-- The measurement phase of one scenario (RunScenarios after the setup
check): a failed query attaches its error; a drained query records duration
and row count and then captures the plan, downgrading a capture failure to a
single diagnostic line. -/
def runQueryPhase (base : ScenarioResult) (e : ScenarioEnv) : ScenarioResult :=
  match e.queryOutcome with
  | .error msg => { base with err := some msg }
  | .ok dc =>
    let expl :=
      match explainOutcome e with
      | .ok lines => lines
      | .error msg => ["failed to collect EXPLAIN: " ++ msg]
    { base with duration := dc.1, rowCount := dc.2, explain := expl }

/-- One scenario of the run loop of RunScenarios: seed the result with the
static fields, short-circuit on a precondition failure with the wrapped
setup error, otherwise measure and capture. -/
def runOne (sc : Scenario) (e : ScenarioEnv) : ScenarioResult :=
  let base : ScenarioResult :=
    { typ := sc.typ, name := sc.name, descr := sc.descr
    , duration := 0, rowCount := 0, explain := [], err := none }
  match sc.setup with
  | some _ =>
    match e.setupOutcome with
    | some msg => { base with err := some ("setup: " ++ msg) }
    | none => runQueryPhase base e
  | none => runQueryPhase base e

/-- The run loop of RunScenarios from a given catalog position: one result
per remaining catalog entry, each computed from its own engine outcomes. -/
def runFrom (i : Nat) (scs : List Scenario) (env : Nat → ScenarioEnv) :
    List ScenarioResult :=
  match scs with
  | [] => []
  | sc :: rest => runOne sc (env i) :: runFrom (i + 1) rest env

/-- The scenario runner (models.go, RunScenarios): execute the fixed catalog
in order against the engine outcomes. -/
def runScenarios (env : Nat → ScenarioEnv) : List ScenarioResult :=
  runFrom 0 scenarioCatalog env

/-- The contact-string pattern of the spec: a head from the fixed small set
of randomPhone followed by exactly eight decimal digits. -/
def matchesPhonePattern (s : String) : Bool :=
  phoneHeads.any (fun h => s.data.take 3 == h.data) &&
  s.data.length == 11 &&
  (s.data.drop 3).all (fun c => c.isDigit)

/-- Creation-versus-fulfillment consistency of one record: when the
fulfillment timestamp is present it is at or after the creation timestamp. -/
def shipOk (o : Order) : Bool :=
  match o.shippedAt with
  | none => true
  | some s => decide (o.createdAt ≤ s)

/-- A concrete random source: the draw giving the fulfillment offset is zero
while the fulfillment coin toss passes. -/
def c3Rng : Rng :=
  ⟨fun p => if p = 1 then 999999 else 0, 0⟩

/-- A concrete store row of the distinguished hot customer, used to
instantiate theorems with hypotheses. -/
def sampleHotOrder : Order :=
  { id := 1, customerID := coveringCustomerID, customerName := "Customer 000100"
  , phone := "13800000000", status := "paid", productCategory := "books"
  , region := "north", totalAmount := 0, discountCode := "CODE00"
  , note := "manual row", createdAt := 0, updatedAt := 0, shippedAt := none }

/-- A second concrete store row of another customer. -/
def sampleOrderB : Order :=
  { id := 2, customerID := 42, customerName := "Customer 000042"
  , phone := "13900000001", status := "pending", productCategory := "home"
  , region := "south", totalAmount := 5, discountCode := "CODE01"
  , note := "other row", createdAt := 10, updatedAt := 10, shippedAt := some 20 }

/-- Concrete engine outcomes injecting a forced precondition failure into the
first scenario while every other scenario succeeds. -/
def envSetupFail : Nat → ScenarioEnv :=
  fun i =>
    if i = 0 then
      ⟨some "boom", Except.ok (0, 0), Except.ok [], Except.ok []⟩
    else
      ⟨none, Except.ok (5, 7), Except.ok ["plan line"], Except.error "no analyze"⟩

/-- Concrete engine outcomes where the measurement succeeds and both
plan-capture attempts fail. -/
def envExplainFail : ScenarioEnv :=
  ⟨none, Except.ok (3, 9), Except.error "analyze unsupported", Except.error "explain failed"⟩


/-- The first catalog entry as a standalone value, used to instantiate
runner theorems at a concrete scenario. -/
def sampleScenario : Scenario :=
  { typ := "回表对比", name := "索引回表查询"
  , descr := "使用 customer_id 二级索引定位后再取整行，需对每条记录回表。"
  , query := "SELECT * FROM orders WHERE customer_id = ?"
  , args := [QueryArg.natArg coveringCustomerID]
  , setup := some SetupKind.hotCustomer }

/-! ### Helper lemmas about the decimal printer and the phone pattern -/

theorem str_data_append (a b : String) : (a ++ b).data = a.data ++ b.data := by
  cases a
  cases b
  rfl

theorem digitChar_isDigit (k : Nat) (h : k < 10) : (digitChar k).isDigit = true := by
  interval_cases k <;> decide

theorem natDigitsAux_all_digit :
    ∀ (fuel n : Nat), n < fuel → ∀ c ∈ natDigitsAux fuel n, c.isDigit = true := by
  intro fuel
  induction fuel with
  | zero => intro n h; omega
  | succ fuel ih =>
    intro n h c hc
    by_cases h10 : n < 10
    · simp only [natDigitsAux, if_pos h10, List.mem_singleton] at hc
      subst hc
      exact digitChar_isDigit n h10
    · simp only [natDigitsAux, if_neg h10, List.mem_append, List.mem_singleton] at hc
      rcases hc with hc | hc
      · exact ih (n / 10) (by omega) c hc
      · subst hc
        exact digitChar_isDigit (n % 10) (Nat.mod_lt n (by omega))

theorem natDigits_all_digit (n : Nat) : ∀ c ∈ natDigits n, c.isDigit = true :=
  natDigitsAux_all_digit (n + 1) n (Nat.lt_succ_self n)

theorem natDigitsAux_length_le :
    ∀ (fuel e n : Nat), n < fuel → n < 10 ^ e → (natDigitsAux fuel n).length ≤ max 1 e := by
  intro fuel
  induction fuel with
  | zero => intro e n h; omega
  | succ fuel ih =>
    intro e n hfuel he
    by_cases h10 : n < 10
    · simp only [natDigitsAux, if_pos h10, List.length_singleton]
      omega
    · cases e with
      | zero => simp at he; omega
      | succ e1 =>
        have he1 : 1 ≤ e1 := by
          by_contra hc
          have : e1 = 0 := by omega
          subst this
          simp [pow_succ] at he
          omega
        have hdiv : n / 10 < 10 ^ e1 := by
          rw [Nat.div_lt_iff_lt_mul (by omega : 0 < 10)]
          calc n < 10 ^ (e1 + 1) := he
            _ = 10 ^ e1 * 10 := by rw [pow_succ]
        have hdf : n / 10 < fuel := by
          have : n / 10 < n := Nat.div_lt_self (by omega) (by omega)
          omega
        have := ih e1 (n / 10) hdf hdiv
        simp only [natDigitsAux, if_neg h10, List.length_append, List.length_singleton]
        omega

theorem natDigits_length_le (e n : Nat) (h : n < 10 ^ e) (he : 1 ≤ e) :
    (natDigits n).length ≤ e := by
  unfold natDigits
  have := natDigitsAux_length_le (n + 1) e n (Nat.lt_succ_self n) h
  omega

theorem padDec_data (w n : Nat) :
    (padDec w n).data = List.replicate (w - (natDigits n).length) '0' ++ natDigits n := rfl

theorem padDec_length (w n : Nat) (h : (natDigits n).length ≤ w) :
    (padDec w n).data.length = w := by
  rw [padDec_data, List.length_append, List.length_replicate]
  omega

theorem padDec_all_digit (w n : Nat) : ∀ c ∈ (padDec w n).data, c.isDigit = true := by
  intro c hc
  rw [padDec_data, List.mem_append] at hc
  rcases hc with hc | hc
  · have := List.eq_of_mem_replicate hc
    subst this
    decide
  · exact natDigits_all_digit n c hc

theorem matchesPhonePattern_head_pad (h : String) (hmem : h ∈ phoneHeads)
    (hlen : h.data.length = 3) (m : Nat) (hm : m < 100000000) :
    matchesPhonePattern (h ++ padDec 8 m) = true := by
  have hpadlen : (padDec 8 m).data.length = 8 :=
    padDec_length 8 m (natDigits_length_le 8 m (by omega) (by omega))
  have hdata : (h ++ padDec 8 m).data = h.data ++ (padDec 8 m).data := str_data_append h _
  unfold matchesPhonePattern
  rw [hdata]
  have htake : (h.data ++ (padDec 8 m).data).take 3 = h.data := by
    rw [← hlen]
    exact List.take_left h.data _
  have hdrop : (h.data ++ (padDec 8 m).data).drop 3 = (padDec 8 m).data := by
    rw [← hlen]
    exact List.drop_left h.data _
  rw [htake, hdrop]
  simp only [Bool.and_eq_true]
  refine ⟨⟨?_, ?_⟩, ?_⟩
  · exact List.any_eq_true.2 ⟨h, hmem, by simp⟩
  · simp [List.length_append, hlen, hpadlen]
  · exact List.all_eq_true.2 (padDec_all_digit 8 m)

theorem randomPhone_pattern (r : Rng) :
    matchesPhonePattern (randomPhone r).1 = true := by
  unfold randomPhone Rng.intn Rng.next
  dsimp only
  have hlen5 : phoneHeads.length = 5 := rfl
  have hm : r.fn (r.pos + 1) % 100000000 < 100000000 := Nat.mod_lt _ (by omega)
  set k := r.fn r.pos % phoneHeads.length with hk
  have h5 : k < 5 := by
    rw [hk, hlen5]
    exact Nat.mod_lt _ (by omega)
  have hcase : k = 0 ∨ k = 1 ∨ k = 2 ∨ k = 3 ∨ k = 4 := by omega
  rcases hcase with h | h | h | h | h <;> rw [h] <;>
    exact matchesPhonePattern_head_pad _ (by decide) (by decide) _ hm

/-! ### Helper lemmas about the build loops -/

theorem buildOrders_length :
    ∀ (n start : Nat) (r : Rng) (now : Int), (buildOrders start n r now).length = n := by
  intro n
  induction n with
  | zero => intro start r now; rfl
  | succ m ih =>
    intro start r now
    simp only [buildOrders, List.length_cons, ih]

theorem hotCloneOrders_length :
    ∀ (n : Nat) (t : Order) (idx : Nat), (hotCloneOrders t idx n).length = n := by
  intro n
  induction n with
  | zero => intro t idx; rfl
  | succ m ih =>
    intro t idx
    simp only [hotCloneOrders, List.length_cons, ih]

theorem phoneHotOrders_length :
    ∀ (n idx : Nat) (r : Rng) (now : Int), (phoneHotOrders idx n r now).length = n := by
  intro n
  induction n with
  | zero => intro idx r now; rfl
  | succ m ih =>
    intro idx r now
    simp only [phoneHotOrders, List.length_cons, ih]

theorem dateRangeOrders_length :
    ∀ (n existing i : Nat) (r : Rng), (dateRangeOrders existing i n r).length = n := by
  intro n
  induction n with
  | zero => intro existing i r; rfl
  | succ m ih =>
    intro existing i r
    simp only [dateRangeOrders, List.length_cons, ih]

theorem mem_buildOrders :
    ∀ (n start : Nat) (r : Rng) (now : Int) (o : Order), o ∈ buildOrders start n r now →
      ∃ (j : Nat) (r2 : Rng), j < n ∧ o = (buildSyntheticOrder (start + j) r2 now).1 := by
  intro n
  induction n with
  | zero => intro start r now o h; simp [buildOrders] at h
  | succ m ih =>
    intro start r now o h
    simp only [buildOrders, List.mem_cons] at h
    rcases h with h | h
    · exact ⟨0, r, by omega, by simpa using h⟩
    · obtain ⟨j, r2, hj, ho⟩ := ih (start + 1) _ now o h
      refine ⟨j + 1, r2, by omega, ?_⟩
      rw [show start + (j + 1) = start + 1 + j by omega]
      exact ho

theorem mem_hotCloneOrders :
    ∀ (n : Nat) (t : Order) (idx : Nat) (o : Order), o ∈ hotCloneOrders t idx n →
      ∃ j : Nat, j < n ∧ o = hotClone t (idx + j) := by
  intro n
  induction n with
  | zero => intro t idx o h; simp [hotCloneOrders] at h
  | succ m ih =>
    intro t idx o h
    simp only [hotCloneOrders, List.mem_cons] at h
    rcases h with h | h
    · exact ⟨0, by omega, by simpa using h⟩
    · obtain ⟨j, hj, ho⟩ := ih t (idx + 1) o h
      refine ⟨j + 1, by omega, ?_⟩
      rw [show idx + (j + 1) = idx + 1 + j by omega]
      exact ho

theorem mem_phoneHotOrders :
    ∀ (n idx : Nat) (r : Rng) (now : Int) (o : Order), o ∈ phoneHotOrders idx n r now →
      ∃ (j : Nat) (r2 : Rng), j < n ∧ o = (phoneHotOrder (idx + j) r2 now).1 := by
  intro n
  induction n with
  | zero => intro idx r now o h; simp [phoneHotOrders] at h
  | succ m ih =>
    intro idx r now o h
    simp only [phoneHotOrders, List.mem_cons] at h
    rcases h with h | h
    · exact ⟨0, r, by omega, by simpa using h⟩
    · obtain ⟨j, r2, hj, ho⟩ := ih (idx + 1) _ now o h
      refine ⟨j + 1, r2, by omega, ?_⟩
      rw [show idx + (j + 1) = idx + 1 + j by omega]
      exact ho

theorem mem_dateRangeOrders :
    ∀ (n existing i : Nat) (r : Rng) (o : Order), o ∈ dateRangeOrders existing i n r →
      ∃ (j : Nat) (r2 : Rng), j < n ∧ o = (dateRangeOrder existing (i + j) r2).1 := by
  intro n
  induction n with
  | zero => intro existing i r o h; simp [dateRangeOrders] at h
  | succ m ih =>
    intro existing i r o h
    simp only [dateRangeOrders, List.mem_cons] at h
    rcases h with h | h
    · exact ⟨0, r, by omega, by simpa using h⟩
    · obtain ⟨j, r2, hj, ho⟩ := ih existing (i + 1) _ o h
      refine ⟨j + 1, r2, by omega, ?_⟩
      rw [show i + (j + 1) = i + 1 + j by omega]
      exact ho

/-! ### Field-level facts about the record constructors -/

theorem buildSyntheticOrder_updated_eq_created (idx : Nat) (r : Rng) (now : Int) :
    (buildSyntheticOrder idx r now).1.updatedAt = (buildSyntheticOrder idx r now).1.createdAt := by
  unfold buildSyntheticOrder
  dsimp only
  repeat' split
  all_goals rfl

theorem buildSyntheticOrder_shipOk (idx : Nat) (r : Rng) (now : Int) :
    shipOk (buildSyntheticOrder idx r now).1 = true := by
  unfold buildSyntheticOrder
  dsimp only
  repeat' split
  all_goals first
    | rfl
    | (simp only [shipOk, decide_eq_true_eq]; omega)

theorem buildSyntheticOrder_phone (idx : Nat) (r : Rng) (now : Int) :
    matchesPhonePattern (buildSyntheticOrder idx r now).1.phone = true := by
  unfold buildSyntheticOrder
  dsimp only
  repeat' split
  all_goals exact randomPhone_pattern _

theorem buildSyntheticOrder_hot (idx : Nat) (r : Rng) (now : Int) (h : idx < 1000) :
    (buildSyntheticOrder idx r now).1.customerID = coveringCustomerID := by
  unfold buildSyntheticOrder
  dsimp only
  rw [if_pos h]
  rfl

theorem phoneHotOrder_phone (i : Nat) (r : Rng) (now : Int) :
    (phoneHotOrder i r now).1.phone = PhoneHotValue := rfl

theorem phoneHotOrder_updated_eq_created (i : Nat) (r : Rng) (now : Int) :
    (phoneHotOrder i r now).1.updatedAt = (phoneHotOrder i r now).1.createdAt := rfl

theorem phoneHotOrder_shippedAt (i : Nat) (r : Rng) (now : Int) :
    (phoneHotOrder i r now).1.shippedAt = none := rfl

theorem dateRangeOrder_phone (existing i : Nat) (r : Rng) :
    (dateRangeOrder existing i r).1.phone = "" := rfl

theorem dateRangeOrder_updated_eq_created (existing i : Nat) (r : Rng) :
    (dateRangeOrder existing i r).1.updatedAt = (dateRangeOrder existing i r).1.createdAt := rfl

theorem dateRangeOrder_shipOk (existing i : Nat) (r : Rng) :
    shipOk (dateRangeOrder existing i r).1 = true := by
  unfold dateRangeOrder
  dsimp only
  repeat' split
  all_goals first
    | rfl
    | (simp only [shipOk, decide_eq_true_eq]; omega)

theorem dateRangeOrder_inRange (existing i : Nat) (r : Rng) :
    inDateRange (dateRangeOrder existing i r).1 = true := by
  have hmod : r.fn r.pos % (24 * 60 * 60) < 24 * 60 * 60 := Nat.mod_lt _ (by omega)
  unfold dateRangeOrder Rng.intn Rng.next
  dsimp only
  simp only [inDateRange, indexFuncRangeEnd, Bool.and_eq_true, decide_eq_true_eq]
  constructor <;> omega

theorem hotClone_customerID (t : Order) (i : Nat) :
    (hotClone t i).customerID = t.customerID := rfl

theorem hotClone_phone (t : Order) (i : Nat) : (hotClone t i).phone = t.phone := rfl

theorem hotClone_updated_eq_created (t : Order) (i : Nat) :
    (hotClone t i).updatedAt = (hotClone t i).createdAt := rfl

theorem hotClone_shipOk (t : Order) (i : Nat) (h : shipOk t = true) :
    shipOk (hotClone t i) = true := by
  cases hts : t.shippedAt with
  | none =>
    have hcs : (hotClone t i).shippedAt = none := by
      simp [hotClone, hts]
    simp [shipOk, hcs]
  | some s =>
    have h2 : t.createdAt ≤ s := by
      simpa [shipOk, hts] using h
    have hcs : (hotClone t i).shippedAt = some (s + (i : Int)) := by
      simp [hotClone, hts]
    have hcc : (hotClone t i).createdAt = t.createdAt + (i : Int) := rfl
    simp only [shipOk, hcs, hcc, decide_eq_true_eq]
    omega

/-! ### Machinery about the four population paths -/

theorem length_filter_append_of_all (pf : Order → Bool) (store ins : List Order)
    (hall : ∀ o ∈ ins, pf o = true) :
    ((store ++ ins).filter pf).length = (store.filter pf).length + ins.length := by
  rw [List.filter_append, List.length_append, List.filter_eq_self.mpr hall]

theorem popNoop (p : PopTarget) (store : List Order)
    (h : popTargetOf p ≤ popCount p store) : runPop p store = (store, none) := by
  cases p with
  | general cfg now =>
    have h2 : store.length ≥ cfg.orders := by
      simpa [popCount, popFilter, popTargetOf] using h
    simp only [runPop, seedOrders]
    rw [if_pos h2]
  | hotCustomer =>
    have h2 : (store.filter hotFilter).length ≥ CoveringCustomerTarget := by
      simpa [popCount, popFilter, popTargetOf] using h
    simp only [runPop, ensureHotCustomerOrders]
    rw [if_pos h2]
  | phoneHot r now =>
    have h2 : (store.filter (fun o => o.phone == PhoneHotValue)).length ≥ phoneHotRowTarget := by
      simpa [popCount, popFilter, popTargetOf] using h
    simp only [runPop, ensurePhoneHotOrders]
    rw [if_pos h2]
  | dateRange r =>
    have h2 : (store.filter inDateRange).length ≥ DateRangeOrderTarget := by
      simpa [popCount, popFilter, popTargetOf] using h
    simp only [runPop, ensureDateRangeOrders]
    rw [if_pos h2]

theorem popTopup (p : PopTarget) (store : List Order)
    (h : popCount p store < popTargetOf p) (he : (runPop p store).2 = none) :
    (runPop p store).1 = store ++ popInserted p store ∧
    (popInserted p store).length = popTargetOf p - popCount p store ∧
    popCount p ((runPop p store).1) = popTargetOf p := by
  cases p with
  | general cfg now =>
    have h2 : ¬ store.length ≥ cfg.orders := by
      have := h
      simp only [popCount, popFilter, popTargetOf, List.filter_true] at this
      omega
    have hrun : runPop (PopTarget.general cfg now) store =
        (store ++ buildOrders store.length (cfg.orders - store.length) (mkRng 42) now, none) := by
      simp only [runPop, seedOrders]
      rw [if_neg h2]
    have hins : popInserted (PopTarget.general cfg now) store =
        buildOrders store.length (cfg.orders - store.length) (mkRng 42) now := by
      unfold popInserted
      rw [hrun]
      exact List.drop_left store _
    refine ⟨by rw [hrun, hins], ?_, ?_⟩
    · rw [hins, buildOrders_length]
      simp only [popCount, popFilter, popTargetOf, List.filter_true]
    · rw [hrun]
      simp only [popCount, popFilter, popTargetOf, List.filter_true, List.length_append,
        buildOrders_length]
      simp only [popCount, popFilter, List.filter_true] at h
      simp only [popTargetOf] at h
      omega
  | hotCustomer =>
    have h2 : ¬ (store.filter hotFilter).length ≥ CoveringCustomerTarget := by
      have := h
      simp only [popCount, popFilter, popTargetOf] at this
      omega
    cases hh : (store.filter hotFilter).head? with
    | none =>
      exfalso
      have : (runPop PopTarget.hotCustomer store).2 = some "fetch template order: record not found" := by
        simp only [runPop, ensureHotCustomerOrders]
        rw [if_neg h2, hh]
      rw [this] at he
      exact Option.noConfusion he
    | some t =>
      have ht : hotFilter t = true := by
        have hmem : t ∈ store.filter hotFilter :=
          List.mem_of_mem_head? (by rw [hh]; exact rfl)
        exact (List.mem_filter.mp hmem).2
      have hrun : runPop PopTarget.hotCustomer store =
          (store ++ hotCloneOrders t (store.filter hotFilter).length
            (CoveringCustomerTarget - (store.filter hotFilter).length), none) := by
        simp only [runPop, ensureHotCustomerOrders]
        rw [if_neg h2, hh]
      have hins : popInserted PopTarget.hotCustomer store =
          hotCloneOrders t (store.filter hotFilter).length
            (CoveringCustomerTarget - (store.filter hotFilter).length) := by
        unfold popInserted
        rw [hrun]
        exact List.drop_left store _
      have hall : ∀ o ∈ hotCloneOrders t (store.filter hotFilter).length
          (CoveringCustomerTarget - (store.filter hotFilter).length), hotFilter o = true := by
        intro o ho
        obtain ⟨j, hj, rfl⟩ := mem_hotCloneOrders _ t _ o ho
        rw [hotFilter, hotClone_customerID]
        exact ht
      refine ⟨by rw [hrun, hins], ?_, ?_⟩
      · rw [hins, hotCloneOrders_length]
        simp only [popCount, popFilter, popTargetOf]
      · rw [hrun]
        simp only [popCount, popFilter, popTargetOf]
        rw [length_filter_append_of_all hotFilter store _ hall, hotCloneOrders_length]
        simp only [popCount, popFilter, popTargetOf] at h
        omega
  | phoneHot r now =>
    have h2 : ¬ (store.filter (fun o => o.phone == PhoneHotValue)).length ≥ phoneHotRowTarget := by
      have := h
      simp only [popCount, popFilter, popTargetOf] at this
      omega
    have hrun : runPop (PopTarget.phoneHot r now) store =
        (store ++ phoneHotOrders (store.filter (fun o => o.phone == PhoneHotValue)).length
          (phoneHotRowTarget - (store.filter (fun o => o.phone == PhoneHotValue)).length) r now,
          none) := by
      simp only [runPop, ensurePhoneHotOrders]
      rw [if_neg h2]
    have hins : popInserted (PopTarget.phoneHot r now) store =
        phoneHotOrders (store.filter (fun o => o.phone == PhoneHotValue)).length
          (phoneHotRowTarget - (store.filter (fun o => o.phone == PhoneHotValue)).length) r now := by
      unfold popInserted
      rw [hrun]
      exact List.drop_left store _
    have hall : ∀ o ∈ phoneHotOrders (store.filter (fun o => o.phone == PhoneHotValue)).length
        (phoneHotRowTarget - (store.filter (fun o => o.phone == PhoneHotValue)).length) r now,
        (o.phone == PhoneHotValue) = true := by
      intro o ho
      obtain ⟨j, r2, hj, rfl⟩ := mem_phoneHotOrders _ _ r now o ho
      rw [phoneHotOrder_phone]
      exact beq_self_eq_true PhoneHotValue
    refine ⟨by rw [hrun, hins], ?_, ?_⟩
    · rw [hins, phoneHotOrders_length]
      simp only [popCount, popFilter, popTargetOf]
    · rw [hrun]
      simp only [popCount, popFilter, popTargetOf]
      rw [length_filter_append_of_all _ store _ hall, phoneHotOrders_length]
      simp only [popCount, popFilter, popTargetOf] at h
      omega
  | dateRange r =>
    have h2 : ¬ (store.filter inDateRange).length ≥ DateRangeOrderTarget := by
      have := h
      simp only [popCount, popFilter, popTargetOf] at this
      omega
    have hrun : runPop (PopTarget.dateRange r) store =
        (store ++ dateRangeOrders (store.filter inDateRange).length 0
          (DateRangeOrderTarget - (store.filter inDateRange).length) r, none) := by
      simp only [runPop, ensureDateRangeOrders]
      rw [if_neg h2]
    have hins : popInserted (PopTarget.dateRange r) store =
        dateRangeOrders (store.filter inDateRange).length 0
          (DateRangeOrderTarget - (store.filter inDateRange).length) r := by
      unfold popInserted
      rw [hrun]
      exact List.drop_left store _
    have hall : ∀ o ∈ dateRangeOrders (store.filter inDateRange).length 0
        (DateRangeOrderTarget - (store.filter inDateRange).length) r, inDateRange o = true := by
      intro o ho
      obtain ⟨j, r2, hj, rfl⟩ := mem_dateRangeOrders _ _ 0 r o ho
      exact dateRangeOrder_inRange _ _ _
    refine ⟨by rw [hrun, hins], ?_, ?_⟩
    · rw [hins, dateRangeOrders_length]
      simp only [popCount, popFilter, popTargetOf]
    · rw [hrun]
      simp only [popCount, popFilter, popTargetOf]
      rw [length_filter_append_of_all _ store _ hall, dateRangeOrders_length]
      simp only [popCount, popFilter, popTargetOf] at h
      omega


theorem popInserted_eq_nil_of_ge (p : PopTarget) (store : List Order)
    (h : popTargetOf p ≤ popCount p store) : popInserted p store = [] := by
  unfold popInserted
  rw [popNoop p store h]
  exact List.drop_length store

theorem popInserted_general (cfg : SeedConfig) (now : Int) (store : List Order)
    (h2 : ¬ store.length ≥ cfg.orders) :
    popInserted (PopTarget.general cfg now) store =
      buildOrders store.length (cfg.orders - store.length) (mkRng 42) now := by
  unfold popInserted
  simp only [runPop, seedOrders]
  rw [if_neg h2]
  exact List.drop_left store _

theorem popInserted_hot_none (store : List Order)
    (h2 : ¬ (store.filter hotFilter).length ≥ CoveringCustomerTarget)
    (hh : (store.filter hotFilter).head? = none) :
    popInserted PopTarget.hotCustomer store = [] := by
  unfold popInserted
  simp only [runPop, ensureHotCustomerOrders]
  rw [if_neg h2, hh]
  exact List.drop_length store

theorem popInserted_hot (store : List Order) (t : Order)
    (h2 : ¬ (store.filter hotFilter).length ≥ CoveringCustomerTarget)
    (hh : (store.filter hotFilter).head? = some t) :
    popInserted PopTarget.hotCustomer store =
      hotCloneOrders t (store.filter hotFilter).length
        (CoveringCustomerTarget - (store.filter hotFilter).length) := by
  unfold popInserted
  simp only [runPop, ensureHotCustomerOrders]
  rw [if_neg h2, hh]
  exact List.drop_left store _

theorem popInserted_phoneHot (r : Rng) (now : Int) (store : List Order)
    (h2 : ¬ (store.filter (fun o => o.phone == PhoneHotValue)).length ≥ phoneHotRowTarget) :
    popInserted (PopTarget.phoneHot r now) store =
      phoneHotOrders (store.filter (fun o => o.phone == PhoneHotValue)).length
        (phoneHotRowTarget - (store.filter (fun o => o.phone == PhoneHotValue)).length) r now := by
  unfold popInserted
  simp only [runPop, ensurePhoneHotOrders]
  rw [if_neg h2]
  exact List.drop_left store _

theorem popInserted_dateRange (r : Rng) (store : List Order)
    (h2 : ¬ (store.filter inDateRange).length ≥ DateRangeOrderTarget) :
    popInserted (PopTarget.dateRange r) store =
      dateRangeOrders (store.filter inDateRange).length 0
        (DateRangeOrderTarget - (store.filter inDateRange).length) r := by
  unfold popInserted
  simp only [runPop, ensureDateRangeOrders]
  rw [if_neg h2]
  exact List.drop_left store _

theorem buildOrders_take_hot :
    ∀ (n s : Nat) (r : Rng) (now : Int) (o : Order),
      o ∈ (buildOrders s n r now).take (1000 - s) → o.customerID = coveringCustomerID := by
  intro n
  induction n with
  | zero => intro s r now o h; simp [buildOrders] at h
  | succ m ih =>
    intro s r now o h
    cases hts : 1000 - s with
    | zero => rw [hts] at h; simp at h
    | succ k =>
      rw [hts] at h
      simp only [buildOrders, List.take_succ_cons, List.mem_cons] at h
      rcases h with h | h
      · subst h
        exact buildSyntheticOrder_hot s _ now (by omega)
      · have hk : k = 1000 - (s + 1) := by omega
        rw [hk] at h
        exact ih (s + 1) _ now o h

/-! ### Lemmas about the scenario runner -/

theorem runFrom_length :
    ∀ (scs : List Scenario) (i : Nat) (env : Nat → ScenarioEnv),
      (runFrom i scs env).length = scs.length := by
  intro scs
  induction scs with
  | nil => intro i env; rfl
  | cons sc rest ih =>
    intro i env
    simp only [runFrom, List.length_cons, ih]

theorem runFrom_getElem? :
    ∀ (scs : List Scenario) (i j : Nat) (env : Nat → ScenarioEnv),
      (runFrom i scs env)[j]? = scs[j]?.map (fun sc => runOne sc (env (i + j))) := by
  intro scs
  induction scs with
  | nil => intro i j env; simp [runFrom]
  | cons sc rest ih =>
    intro i j env
    cases j with
    | zero => simp [runFrom]
    | succ k =>
      simp only [runFrom, List.getElem?_cons_succ]
      rw [ih (i + 1) k env, show i + 1 + k = i + (k + 1) by omega]

theorem runScenarios_getElem? (env : Nat → ScenarioEnv) (i : Nat) :
    (runScenarios env)[i]? = scenarioCatalog[i]?.map (fun sc => runOne sc (env i)) := by
  unfold runScenarios
  rw [runFrom_getElem? scenarioCatalog 0 i env]
  simp

theorem runOne_setup_err (sc : Scenario) (e : ScenarioEnv) (k : SetupKind) (msg : String)
    (hs : sc.setup = some k) (hm : e.setupOutcome = some msg) :
    runOne sc e =
      { typ := sc.typ, name := sc.name, descr := sc.descr
      , duration := 0, rowCount := 0, explain := [], err := some ("setup: " ++ msg) } := by
  simp only [runOne, hs, hm]

theorem scenarioCatalog_setup_isSome :
    ∀ sc ∈ scenarioCatalog, sc.setup.isSome = true := by decide

set_option maxRecDepth 4000 in
theorem heavyHotNoteText_length : heavyHotNoteText.data.length = heavyHotNoteRuneLimit := by
  decide


/-! ### Claims -/

/-- Claim C1 (amended): for every store state and every populator target, if
the matching row count K reaches the target the populator performs no writes;
if K is below the target and the run completes without error (which for the
hot-customer path requires an existing template row), the populator appends
exactly (target - K) new rows after the unmodified existing store, the
matching count afterwards equals the target, and a second invocation is a
no-op that performs zero additional writes. -/
theorem c1_count_then_topup (p : PopTarget) (store : List Order) :
    (popTargetOf p ≤ popCount p store → runPop p store = (store, none)) ∧
    (popCount p store < popTargetOf p → (runPop p store).2 = none →
      (runPop p store).1 = store ++ popInserted p store ∧
      (popInserted p store).length = popTargetOf p - popCount p store ∧
      popCount p ((runPop p store).1) = popTargetOf p ∧
      runPop p ((runPop p store).1) = ((runPop p store).1, none)) := by
  refine ⟨popNoop p store, fun h he => ?_⟩
  obtain ⟨h1, h2, h3⟩ := popTopup p store h he
  exact ⟨h1, h2, h3, popNoop p ((runPop p store).1) h3.ge⟩

/-- Claim C1 counterexample: against the empty store the hot-customer
populator reads K = 0 below its target, yet it fails on the template fetch
and inserts zero rows rather than the deficit of 1000000, so a second
invocation cannot leave the row count at the target either. -/
theorem c1_counterexample :
    popCount PopTarget.hotCustomer [] < popTargetOf PopTarget.hotCustomer ∧
    runPop PopTarget.hotCustomer [] = ([], some "fetch template order: record not found") ∧
    (popInserted PopTarget.hotCustomer []).length = 0 ∧
    popTargetOf PopTarget.hotCustomer - popCount PopTarget.hotCustomer [] = 1000000 := by
  decide

/-- Claim C1 witness: the general path on the empty store with target 1. -/
theorem c1_witness :
    popCount (PopTarget.general ⟨1, 1000⟩ 0) [] < popTargetOf (PopTarget.general ⟨1, 1000⟩ 0) ∧
    (popInserted (PopTarget.general ⟨1, 1000⟩ 0) []).length =
      popTargetOf (PopTarget.general ⟨1, 1000⟩ 0) - popCount (PopTarget.general ⟨1, 1000⟩ 0) [] :=
  ⟨by decide,
   ((c1_count_then_topup (PopTarget.general ⟨1, 1000⟩ 0) []).2 (by decide) (by decide)).2.1⟩

/-- Claim C3 (amended): every record generated by the general builder, the
hot-phone path and the date-range path has its fulfillment timestamp, when
present, at or after its creation timestamp (not strictly after: the general
builder can draw a zero offset); the hot-customer clones preserve this
property from the store rows they are cloned from. -/
theorem c3_fulfillment_not_before_creation (p : PopTarget) (store : List Order)
    (hstore : ∀ o ∈ store, shipOk o = true) :
    ∀ o ∈ popInserted p store, shipOk o = true := by
  intro o ho
  cases p with
  | general cfg now =>
    by_cases hc : store.length ≥ cfg.orders
    · rw [popInserted_eq_nil_of_ge _ store
        (by simpa [popCount, popFilter, popTargetOf, List.filter_true] using hc)] at ho
      simp at ho
    · rw [popInserted_general cfg now store hc] at ho
      obtain ⟨j, r2, hj, rfl⟩ := mem_buildOrders _ _ _ now o ho
      exact buildSyntheticOrder_shipOk _ _ now
  | hotCustomer =>
    by_cases hc : (store.filter hotFilter).length ≥ CoveringCustomerTarget
    · rw [popInserted_eq_nil_of_ge _ store
        (by simpa [popCount, popFilter, popTargetOf] using hc)] at ho
      simp at ho
    · cases hh : (store.filter hotFilter).head? with
      | none =>
        rw [popInserted_hot_none store hc hh] at ho
        simp at ho
      | some t =>
        rw [popInserted_hot store t hc hh] at ho
        obtain ⟨j, hj, rfl⟩ := mem_hotCloneOrders _ t _ o ho
        have htm : t ∈ store := by
          have hf : t ∈ store.filter hotFilter :=
            List.mem_of_mem_head? (Option.mem_def.mpr hh)
          exact (List.mem_filter.mp hf).1
        exact hotClone_shipOk t _ (hstore t htm)
  | phoneHot r now =>
    by_cases hc : (store.filter (fun o => o.phone == PhoneHotValue)).length ≥ phoneHotRowTarget
    · rw [popInserted_eq_nil_of_ge _ store
        (by simpa [popCount, popFilter, popTargetOf] using hc)] at ho
      simp at ho
    · rw [popInserted_phoneHot r now store hc] at ho
      obtain ⟨j, r2, hj, rfl⟩ := mem_phoneHotOrders _ _ _ now o ho
      simp [shipOk, phoneHotOrder_shippedAt]
  | dateRange r =>
    by_cases hc : (store.filter inDateRange).length ≥ DateRangeOrderTarget
    · rw [popInserted_eq_nil_of_ge _ store
        (by simpa [popCount, popFilter, popTargetOf] using hc)] at ho
      simp at ho
    · rw [popInserted_dateRange r store hc] at ho
      obtain ⟨j, r2, hj, rfl⟩ := mem_dateRangeOrders _ _ _ r o ho
      exact dateRangeOrder_shipOk _ _ _

/-- Claim C3 counterexample: a random source that passes the fulfillment coin
toss and then draws offset zero makes the builder emit a record whose
fulfillment timestamp is present and exactly equal to its creation timestamp,
so the fulfillment timestamp is not strictly after the creation timestamp. -/
theorem c3_counterexample :
    (buildSyntheticOrder 0 c3Rng 0).1.shippedAt =
      some ((buildSyntheticOrder 0 c3Rng 0).1.createdAt) := by
  decide

/-- Claim C3 witness: the empty store and the one-record general run. -/
theorem c3_witness :
    (∀ o ∈ ([] : List Order), shipOk o = true) ∧
    (∀ o ∈ popInserted (PopTarget.general ⟨1, 1000⟩ 0) [], shipOk o = true) :=
  ⟨by simp,
   c3_fulfillment_not_before_creation (PopTarget.general ⟨1, 1000⟩ 0) [] (by simp)⟩

/-- Claim C6: the status weights sum to 100; for every draw below 100 the
subtraction loop selects a category before falling through to the defensive
default, and each category is selected for exactly its weight among the 100
possible draws. -/
theorem c6_weighted_choice_exact :
    statuses.foldl (fun acc it => acc + statusWeight it) 0 = 100 ∧
    ((List.range 100).all fun n => (weightedPick statuses (n : Int)).isSome) = true ∧
    ((List.range 100).filter fun n => weightedPick statuses (n : Int) == some "pending").length
      = statusWeight "pending" ∧
    ((List.range 100).filter fun n => weightedPick statuses (n : Int) == some "paid").length
      = statusWeight "paid" ∧
    ((List.range 100).filter fun n => weightedPick statuses (n : Int) == some "fulfilled").length
      = statusWeight "fulfilled" ∧
    ((List.range 100).filter fun n => weightedPick statuses (n : Int) == some "cancelled").length
      = statusWeight "cancelled" := by
  decide

/-- Claim C8 (amended): the general seeding is deterministic given the same
reference timestamp: it uses the fixed seed 42, so the inserted sequence
depends only on the prior row count, the target and the reference time — two
runs over stores of equal size with the same configuration and the same
reference timestamp insert identical record sequences field for field. -/
theorem c8_fixed_seed_deterministic (store1 store2 : List Order) (cfg : SeedConfig) (now : Int)
    (h : store1.length = store2.length) :
    seedInserted store1 cfg now = seedInserted store2 cfg now := by
  simp only [seedInserted, seedOrders]
  by_cases hc : store1.length ≥ cfg.orders
  · rw [if_pos hc, if_pos (show store2.length ≥ cfg.orders by omega)]
    rw [List.drop_length, List.drop_length]
  · rw [if_neg hc, if_neg (show ¬ store2.length ≥ cfg.orders by omega)]
    rw [List.drop_left, List.drop_left, h]

/-- Claim C8 counterexample: two runs of the general seeding against the
empty store with the same target and batch size but different reference
timestamps insert different records — the creation timestamp is anchored at
the wall clock of the run, so the sequences are not identical field for
field. -/
theorem c8_counterexample :
    seedInserted [] ⟨1, 1000⟩ 0 ≠ seedInserted [] ⟨1, 1000⟩ 3600 := by
  decide

/-- Claim C8 witness: equal-size stores with different contents. -/
theorem c8_witness :
    ([sampleHotOrder] : List Order).length = ([sampleOrderB] : List Order).length ∧
    seedInserted [sampleHotOrder] ⟨2, 1000⟩ 5 = seedInserted [sampleOrderB] ⟨2, 1000⟩ 5 :=
  ⟨by decide, c8_fixed_seed_deterministic [sampleHotOrder] [sampleOrderB] ⟨2, 1000⟩ 5 (by decide)⟩

/-- Claim C9 (amended): the contact field of every record inserted by the
general path matches the prefix-plus-8-digit pattern, the hot-phone path
stores the fixed contact value (which matches the pattern), the hot-customer
clones inherit the contact of the template row of the store, and the
date-range path leaves the contact field empty (the zero value, which does
not match the pattern).  The field is a string in every case. -/
theorem c9_contact_field_by_path :
    (∀ (cfg : SeedConfig) (now : Int) (store : List Order),
       ∀ o ∈ popInserted (PopTarget.general cfg now) store,
         matchesPhonePattern o.phone = true) ∧
    (∀ (r : Rng) (now : Int) (store : List Order),
       ∀ o ∈ popInserted (PopTarget.phoneHot r now) store, o.phone = PhoneHotValue) ∧
    matchesPhonePattern PhoneHotValue = true ∧
    (∀ store : List Order, ∀ o ∈ popInserted PopTarget.hotCustomer store,
       ∃ t, t ∈ store ∧ hotFilter t = true ∧ o.phone = t.phone) ∧
    (∀ (r : Rng) (store : List Order),
       ∀ o ∈ popInserted (PopTarget.dateRange r) store, o.phone = "") := by
  refine ⟨?_, ?_, by decide, ?_, ?_⟩
  · intro cfg now store o ho
    by_cases hc : store.length ≥ cfg.orders
    · rw [popInserted_eq_nil_of_ge _ store
        (by simpa [popCount, popFilter, popTargetOf, List.filter_true] using hc)] at ho
      simp at ho
    · rw [popInserted_general cfg now store hc] at ho
      obtain ⟨j, r2, hj, rfl⟩ := mem_buildOrders _ _ _ now o ho
      exact buildSyntheticOrder_phone _ _ now
  · intro r now store o ho
    by_cases hc : (store.filter (fun o => o.phone == PhoneHotValue)).length ≥ phoneHotRowTarget
    · rw [popInserted_eq_nil_of_ge _ store
        (by simpa [popCount, popFilter, popTargetOf] using hc)] at ho
      simp at ho
    · rw [popInserted_phoneHot r now store hc] at ho
      obtain ⟨j, r2, hj, rfl⟩ := mem_phoneHotOrders _ _ _ now o ho
      exact phoneHotOrder_phone _ _ now
  · intro store o ho
    by_cases hc : (store.filter hotFilter).length ≥ CoveringCustomerTarget
    · rw [popInserted_eq_nil_of_ge _ store
        (by simpa [popCount, popFilter, popTargetOf] using hc)] at ho
      simp at ho
    · cases hh : (store.filter hotFilter).head? with
      | none =>
        rw [popInserted_hot_none store hc hh] at ho
        simp at ho
      | some t =>
        rw [popInserted_hot store t hc hh] at ho
        obtain ⟨j, hj, rfl⟩ := mem_hotCloneOrders _ t _ o ho
        have hf : t ∈ store.filter hotFilter :=
          List.mem_of_mem_head? (Option.mem_def.mpr hh)
        exact ⟨t, (List.mem_filter.mp hf).1, (List.mem_filter.mp hf).2, hotClone_phone t _⟩
  · intro r store o ho
    by_cases hc : (store.filter inDateRange).length ≥ DateRangeOrderTarget
    · rw [popInserted_eq_nil_of_ge _ store
        (by simpa [popCount, popFilter, popTargetOf] using hc)] at ho
      simp at ho
    · rw [popInserted_dateRange r store hc] at ho
      obtain ⟨j, r2, hj, rfl⟩ := mem_dateRangeOrders _ _ _ r o ho
      exact dateRangeOrder_phone _ _ _

/-- Claim C9 counterexample: the date-range population stores records whose
contact field is the empty string, which does not match the
prefix-plus-8-digit pattern — so not every stored record carries a
pattern-matching contact token. -/
theorem c9_counterexample :
    (dateRangeOrder 0 0 (mkRng 7)).1 ∈ popInserted (PopTarget.dateRange (mkRng 7)) [] ∧
    matchesPhonePattern (dateRangeOrder 0 0 (mkRng 7)).1.phone = false := by
  constructor
  · have h : (popInserted (PopTarget.dateRange (mkRng 7)) []).head? =
        some (dateRangeOrder 0 0 (mkRng 7)).1 := rfl
    exact List.mem_of_mem_head? (Option.mem_def.mpr h)
  · decide

/-- Claim C9 witness: the single record of a general run on the empty store. -/
theorem c9_witness :
    matchesPhonePattern (buildSyntheticOrder 0 (mkRng 42) 0).1.phone = true :=
  c9_contact_field_by_path.1 ⟨1, 1000⟩ 0 [] _ (by decide)

/-- Claim C10: every record inserted by any of the four population paths has
its last-update timestamp exactly equal to its creation timestamp. -/
theorem c10_update_equals_creation (p : PopTarget) (store : List Order) :
    ∀ o ∈ popInserted p store, o.updatedAt = o.createdAt := by
  intro o ho
  cases p with
  | general cfg now =>
    by_cases hc : store.length ≥ cfg.orders
    · rw [popInserted_eq_nil_of_ge _ store
        (by simpa [popCount, popFilter, popTargetOf, List.filter_true] using hc)] at ho
      simp at ho
    · rw [popInserted_general cfg now store hc] at ho
      obtain ⟨j, r2, hj, rfl⟩ := mem_buildOrders _ _ _ now o ho
      exact buildSyntheticOrder_updated_eq_created _ _ now
  | hotCustomer =>
    by_cases hc : (store.filter hotFilter).length ≥ CoveringCustomerTarget
    · rw [popInserted_eq_nil_of_ge _ store
        (by simpa [popCount, popFilter, popTargetOf] using hc)] at ho
      simp at ho
    · cases hh : (store.filter hotFilter).head? with
      | none =>
        rw [popInserted_hot_none store hc hh] at ho
        simp at ho
      | some t =>
        rw [popInserted_hot store t hc hh] at ho
        obtain ⟨j, hj, rfl⟩ := mem_hotCloneOrders _ t _ o ho
        exact hotClone_updated_eq_created t _
  | phoneHot r now =>
    by_cases hc : (store.filter (fun o => o.phone == PhoneHotValue)).length ≥ phoneHotRowTarget
    · rw [popInserted_eq_nil_of_ge _ store
        (by simpa [popCount, popFilter, popTargetOf] using hc)] at ho
      simp at ho
    · rw [popInserted_phoneHot r now store hc] at ho
      obtain ⟨j, r2, hj, rfl⟩ := mem_phoneHotOrders _ _ _ now o ho
      exact phoneHotOrder_updated_eq_created _ _ now
  | dateRange r =>
    by_cases hc : (store.filter inDateRange).length ≥ DateRangeOrderTarget
    · rw [popInserted_eq_nil_of_ge _ store
        (by simpa [popCount, popFilter, popTargetOf] using hc)] at ho
      simp at ho
    · rw [popInserted_dateRange r store hc] at ho
      obtain ⟨j, r2, hj, rfl⟩ := mem_dateRangeOrders _ _ _ r o ho
      exact dateRangeOrder_updated_eq_created _ _ _

/-- Claim C10 witness: the single record of a general run on the empty store. -/
theorem c10_witness :
    (buildSyntheticOrder 0 (mkRng 42) 0).1.updatedAt =
      (buildSyntheticOrder 0 (mkRng 42) 0).1.createdAt :=
  c10_update_equals_creation (PopTarget.general ⟨1, 1000⟩ 0) [] _ (by decide)

/-- Claim C4 (amended): seeding the empty store with target 1000000 produces
exactly 1000000 general rows, but the pools are not disjoint: the first 1000
general records by global index carry the distinguished hot-customer id, so
at least 1000 general rows already count toward the hot-customer pool; the
hot-customer top-up then raises the matching count to exactly 1000000 while
the total row count is 1000000 plus only the hot-customer deficit — strictly
less than the additive sum of the two pool targets. -/
theorem c4_general_overlaps_hot_pool (now : Int) :
    (seedOrders [] ⟨1000000, 1000⟩ now).length = 1000000 ∧
    (∀ o ∈ (seedOrders [] ⟨1000000, 1000⟩ now).take 1000,
       o.customerID = coveringCustomerID) ∧
    1000 ≤ popCount PopTarget.hotCustomer (seedOrders [] ⟨1000000, 1000⟩ now) ∧
    (ensureHotCustomerOrders (seedOrders [] ⟨1000000, 1000⟩ now)).2 = none ∧
    popCount PopTarget.hotCustomer
      (ensureHotCustomerOrders (seedOrders [] ⟨1000000, 1000⟩ now)).1 = 1000000 ∧
    (ensureHotCustomerOrders (seedOrders [] ⟨1000000, 1000⟩ now)).1.length =
      1000000 + (1000000 - popCount PopTarget.hotCustomer (seedOrders [] ⟨1000000, 1000⟩ now)) ∧
    (ensureHotCustomerOrders (seedOrders [] ⟨1000000, 1000⟩ now)).1.length < 2000000 := by
  have hseed : seedOrders [] ⟨1000000, 1000⟩ now = buildOrders 0 1000000 (mkRng 42) now := by
    simp only [seedOrders]
    rw [if_neg (by decide)]
    simp
  set seeded := seedOrders [] ⟨1000000, 1000⟩ now with hsdef
  have hlen : seeded.length = 1000000 := by
    rw [hseed, buildOrders_length]
  have htake : ∀ o ∈ seeded.take 1000, o.customerID = coveringCustomerID := by
    intro o ho
    rw [hseed] at ho
    exact buildOrders_take_hot 1000000 0 (mkRng 42) now o ho
  have h1000 : (seeded.take 1000).length = 1000 := by
    rw [List.length_take, hlen]
    omega
  have hallf : ∀ o ∈ seeded.take 1000, hotFilter o = true := by
    intro o ho
    simp [hotFilter, htake o ho]
  have hcount : 1000 ≤ popCount PopTarget.hotCustomer seeded := by
    show 1000 ≤ (seeded.filter hotFilter).length
    calc 1000 = ((seeded.take 1000).filter hotFilter).length := by
          rw [List.filter_eq_self.mpr hallf, h1000]
      _ ≤ (seeded.filter hotFilter).length := by
          conv_rhs => rw [← List.take_append_drop 1000 seeded]
          rw [List.filter_append, List.length_append]
          exact Nat.le_add_right _ _
  have hKle : popCount PopTarget.hotCustomer seeded ≤ 1000000 := by
    have hle := List.length_filter_le hotFilter seeded
    rw [hlen] at hle
    exact hle
  have hrest : (ensureHotCustomerOrders seeded).2 = none ∧
      popCount PopTarget.hotCustomer (ensureHotCustomerOrders seeded).1 = 1000000 ∧
      (ensureHotCustomerOrders seeded).1.length =
        1000000 + (1000000 - popCount PopTarget.hotCustomer seeded) ∧
      (ensureHotCustomerOrders seeded).1.length < 2000000 := by
    by_cases hKlt : popCount PopTarget.hotCustomer seeded < CoveringCustomerTarget
    · have h2 : ¬ (seeded.filter hotFilter).length ≥ CoveringCustomerTarget := by
        have hx := hKlt
        simp only [popCount, popFilter] at hx
        omega
      cases hh : (seeded.filter hotFilter).head? with
      | none =>
        exfalso
        have hemp : seeded.filter hotFilter = [] := List.head?_eq_none_iff.mp hh
        have : (1000 : Nat) ≤ 0 := by
          have := hcount
          show (1000 : Nat) ≤ 0
          calc (1000 : Nat) ≤ (seeded.filter hotFilter).length := hcount
            _ = 0 := by rw [hemp]; rfl
        omega
      | some t =>
        have hrun : ensureHotCustomerOrders seeded =
            (seeded ++ hotCloneOrders t (seeded.filter hotFilter).length
              (CoveringCustomerTarget - (seeded.filter hotFilter).length), none) := by
          simp only [ensureHotCustomerOrders]
          rw [if_neg h2, hh]
        have hhe : (runPop PopTarget.hotCustomer seeded).2 = none := by
          show (ensureHotCustomerOrders seeded).2 = none
          rw [hrun]
        obtain ⟨ha, hb, hcnt⟩ := popTopup PopTarget.hotCustomer seeded hKlt hhe
        have hlen2 : (ensureHotCustomerOrders seeded).1.length =
            1000000 + (1000000 - popCount PopTarget.hotCustomer seeded) := by
          rw [hrun]
          simp only [List.length_append, hlen, hotCloneOrders_length]
          simp only [popCount, popFilter, CoveringCustomerTarget]
        refine ⟨by rw [hrun], hcnt, hlen2, ?_⟩
        rw [hlen2]
        have h1 := hcount
        omega
    · have hge : (seeded.filter hotFilter).length ≥ CoveringCustomerTarget := by
        have hx : ¬ popCount PopTarget.hotCustomer seeded < CoveringCustomerTarget := hKlt
        simp only [popCount, popFilter] at hx
        omega
      have hnoop : ensureHotCustomerOrders seeded = (seeded, none) := by
        simp only [ensureHotCustomerOrders]
        rw [if_pos hge]
      have hKeq : popCount PopTarget.hotCustomer seeded = 1000000 := by
        have hx : ¬ popCount PopTarget.hotCustomer seeded < CoveringCustomerTarget := hKlt
        have hy := hKle
        simp only [CoveringCustomerTarget] at hx
        omega
      refine ⟨by rw [hnoop], ?_, ?_, ?_⟩
      · rw [hnoop]
        exact hKeq
      · rw [hnoop, hlen, hKeq]
      · rw [hnoop, hlen]
        omega
  exact ⟨hlen, htake, hcount, hrest.1, hrest.2.1, hrest.2.2.1, hrest.2.2.2⟩

/-- Claim C4 counterexample: the very first record of the general seeding of
the empty store at target 1000000 carries the distinguished hot-customer id,
i.e. a general-population row matches the hot-customer pool filter — the
general population overlaps the hot-customer pool, so the four pools are not
additive without overlap. -/
theorem c4_counterexample :
    (seedOrders [] ⟨1000000, 1000⟩ 0).head? = some (buildSyntheticOrder 0 (mkRng 42) 0).1 ∧
    hotFilter (buildSyntheticOrder 0 (mkRng 42) 0).1 = true := by
  exact ⟨rfl, by decide⟩

/-- Claim C4 witness: the length fact and the hot id of the first record. -/
theorem c4_witness :
    (seedOrders [] ⟨1000000, 1000⟩ 0).length = 1000000 ∧
    (buildSyntheticOrder 0 (mkRng 42) 0).1.customerID = coveringCustomerID :=
  ⟨(c4_general_overlaps_hot_pool 0).1,
   (c4_general_overlaps_hot_pool 0).2.1 _ (by decide)⟩

/-- Claim C5: when at least one row of the distinguished owner exists (the
first such row by key is the template) and the prior matching count K does
not exceed 1000000, the hot-customer population finishes without error, the
count filtered on the distinguished owner id is afterwards exactly 1000000,
and every inserted row is the template with identity reset, both timestamps
equal to the template creation time offset by the pool row index in seconds,
the note re-stamped as the 70-character token text suffixed with the row
index, and the fulfillment timestamp shifted alike when present. -/
theorem c5_hot_population_exact (store : List Order) (t : Order)
    (htmpl : (store.filter hotFilter).head? = some t)
    (hK : (store.filter hotFilter).length ≤ CoveringCustomerTarget) :
    (ensureHotCustomerOrders store).2 = none ∧
    popCount PopTarget.hotCustomer (ensureHotCustomerOrders store).1 = CoveringCustomerTarget ∧
    heavyHotNoteText.data.length = heavyHotNoteRuneLimit ∧
    (ensureHotCustomerOrders store).1 = store ++ popInserted PopTarget.hotCustomer store ∧
    (popInserted PopTarget.hotCustomer store).length =
      CoveringCustomerTarget - (store.filter hotFilter).length ∧
    (∀ o ∈ popInserted PopTarget.hotCustomer store,
       ∃ j : Nat, j < CoveringCustomerTarget - (store.filter hotFilter).length ∧
         o = { t with
               id := 0
             , createdAt := t.createdAt + (((store.filter hotFilter).length + j : Nat) : Int)
             , updatedAt := t.createdAt + (((store.filter hotFilter).length + j : Nat) : Int)
             , note := heavyHotNoteText ++ "#" ++ decRepr ((store.filter hotFilter).length + j)
             , shippedAt := t.shippedAt.map
                 (fun s => s + (((store.filter hotFilter).length + j : Nat) : Int)) }) := by
  by_cases hlt : (store.filter hotFilter).length < CoveringCustomerTarget
  · have h2 : ¬ (store.filter hotFilter).length ≥ CoveringCustomerTarget := by omega
    have hhe : (ensureHotCustomerOrders store).2 = none := by
      simp only [ensureHotCustomerOrders]
      rw [if_neg h2, htmpl]
    have hKlt : popCount PopTarget.hotCustomer store < popTargetOf PopTarget.hotCustomer := hlt
    have hhe2 : (runPop PopTarget.hotCustomer store).2 = none := hhe
    obtain ⟨ha, hb, hcnt⟩ := popTopup PopTarget.hotCustomer store hKlt hhe2
    have hinseq := popInserted_hot store t h2 htmpl
    refine ⟨hhe, hcnt, heavyHotNoteText_length, ha, hb, ?_⟩
    intro o ho
    rw [hinseq] at ho
    obtain ⟨j, hj, rfl⟩ := mem_hotCloneOrders _ t _ o ho
    exact ⟨j, hj, rfl⟩
  · have hge : (store.filter hotFilter).length ≥ CoveringCustomerTarget := by omega
    have hEq : (store.filter hotFilter).length = CoveringCustomerTarget := by omega
    have hnoop : ensureHotCustomerOrders store = (store, none) := by
      simp only [ensureHotCustomerOrders]
      rw [if_pos hge]
    have hins : popInserted PopTarget.hotCustomer store = [] :=
      popInserted_eq_nil_of_ge PopTarget.hotCustomer store hge
    refine ⟨by rw [hnoop], ?_, heavyHotNoteText_length, ?_, ?_, ?_⟩
    · rw [hnoop]
      exact hEq
    · rw [hnoop, hins]
      exact (List.append_nil store).symm
    · rw [hins, hEq]
      simp
    · rw [hins]
      intro o ho
      simp at ho

/-- Claim C5 witness: a one-row store holding one hot-customer row. -/
theorem c5_witness :
    (([sampleHotOrder] : List Order).filter hotFilter).head? = some sampleHotOrder ∧
    (([sampleHotOrder] : List Order).filter hotFilter).length ≤ CoveringCustomerTarget ∧
    (ensureHotCustomerOrders [sampleHotOrder]).2 = none ∧
    popCount PopTarget.hotCustomer (ensureHotCustomerOrders [sampleHotOrder]).1 =
      CoveringCustomerTarget :=
  ⟨by decide, by decide,
   (c5_hot_population_exact [sampleHotOrder] sampleHotOrder (by decide) (by decide)).1,
   (c5_hot_population_exact [sampleHotOrder] sampleHotOrder (by decide) (by decide)).2.1⟩

/-- Claim C2: the runner always yields one result per catalog entry, in
catalog order, each computed from the engine outcomes of its own scenario
alone; a precondition failure of a scenario is recorded on that result with
the label "setup: " prefixed to the error, its query is not executed so
duration and row count stay zero, and no result of any other scenario is
affected. -/
theorem c2_runner_isolation (env : Nat → ScenarioEnv) :
    (runScenarios env).length = scenarioCatalog.length ∧
    scenarioCatalog.length = 6 ∧
    (∀ i : Nat, (runScenarios env)[i]? =
       scenarioCatalog[i]?.map (fun sc => runOne sc (env i))) ∧
    (∀ (i : Nat) (sc : Scenario) (msg : String),
       scenarioCatalog[i]? = some sc → (env i).setupOutcome = some msg →
       (runScenarios env)[i]? = some
         { typ := sc.typ, name := sc.name, descr := sc.descr
         , duration := 0, rowCount := 0, explain := [], err := some ("setup: " ++ msg) }) ∧
    (∀ (env2 : Nat → ScenarioEnv) (i : Nat), env i = env2 i →
       (runScenarios env)[i]? = (runScenarios env2)[i]?) := by
  refine ⟨runFrom_length scenarioCatalog 0 env, rfl,
    fun i => runScenarios_getElem? env i, ?_, ?_⟩
  · intro i sc msg hsc hm
    have hmem : sc ∈ scenarioCatalog := List.getElem?_mem hsc
    have hker := scenarioCatalog_setup_isSome sc hmem
    cases hk : sc.setup with
    | none =>
      rw [hk] at hker
      simp at hker
    | some k =>
      have hmap : scenarioCatalog[i]?.map (fun sc => runOne sc (env i)) =
          some (runOne sc (env i)) := by
        rw [hsc]
        rfl
      rw [runScenarios_getElem? env i, hmap, runOne_setup_err sc (env i) k msg hk hm]
  · intro env2 i h
    rw [runScenarios_getElem? env i, runScenarios_getElem? env2 i, h]

/-- Claim C2 witness: a forced failure injected into the first scenario. -/
theorem c2_witness :
    (runScenarios envSetupFail).length = scenarioCatalog.length ∧
    (runScenarios envSetupFail)[0]? = some
      { typ := "回表对比", name := "索引回表查询"
      , descr := "使用 customer_id 二级索引定位后再取整行，需对每条记录回表。"
      , duration := 0, rowCount := 0, explain := [], err := some ("setup: " ++ "boom") } :=
  ⟨(c2_runner_isolation envSetupFail).1,
   (c2_runner_isolation envSetupFail).2.2.2.1 0 sampleScenario "boom" rfl rfl⟩

/-- Claim C7: once a scenario passes its precondition and its query is
measured, the plan capture first tries the analyzing variant — succeeding
there fixes the plan lines with the static variant untried — and falls back
to the static variant exactly when the analyzing attempt fails; when both
attempts fail the result keeps its measured duration and row count, its
error stays nil, and the failure appears as exactly one diagnostic line. -/
theorem c7_explain_fallback (sc : Scenario) (e : ScenarioEnv) (k : SetupKind) (d c : Nat)
    (hs : sc.setup = some k) (hso : e.setupOutcome = none)
    (hq : e.queryOutcome = Except.ok (d, c)) :
    (runOne sc e).err = none ∧
    (runOne sc e).duration = d ∧
    (runOne sc e).rowCount = c ∧
    (∀ lines, e.analyzeOutcome = Except.ok lines → (runOne sc e).explain = lines) ∧
    (∀ m1, e.analyzeOutcome = Except.error m1 →
      (∀ lines, e.staticOutcome = Except.ok lines → (runOne sc e).explain = lines) ∧
      (∀ m2, e.staticOutcome = Except.error m2 →
        (runOne sc e).explain = ["failed to collect EXPLAIN: " ++ m2] ∧
        (runOne sc e).explain.length = 1)) := by
  have hrun : runOne sc e = runQueryPhase
      { typ := sc.typ, name := sc.name, descr := sc.descr
      , duration := 0, rowCount := 0, explain := [], err := none } e := by
    simp only [runOne, hs, hso]
  rw [hrun]
  simp only [runQueryPhase, hq]
  refine ⟨by trivial, by trivial, by trivial, ?_, ?_⟩
  · intro lines hl
    simp only [explainOutcome, hl]
  · intro m1 hm1
    constructor
    · intro lines hl
      simp only [explainOutcome, hm1, hl]
    · intro m2 hm2
      constructor
      · simp only [explainOutcome, hm1, hm2]
      · simp only [explainOutcome, hm1, hm2]
        rfl

/-- Claim C7 witness: a measured scenario whose two plan captures both fail. -/
theorem c7_witness :
    (runOne sampleScenario envExplainFail).err = none ∧
    (runOne sampleScenario envExplainFail).duration = 3 ∧
    (runOne sampleScenario envExplainFail).rowCount = 9 ∧
    (runOne sampleScenario envExplainFail).explain =
      ["failed to collect EXPLAIN: " ++ "explain failed"] := by
  have h := c7_explain_fallback sampleScenario envExplainFail SetupKind.hotCustomer 3 9 rfl rfl rfl
  exact ⟨h.1, h.2.1, h.2.2.1, ((h.2.2.2.2 "analyze unsupported" rfl).2 "explain failed" rfl).1⟩

end SlowLab
